import Mathlib

/-!
Verification of the docx-extractor repository against its specification.

The repository extracts the content of a word-processing document into a
flat, JSON-serialisable list of content items (src/extraction.py) and
reconciles the header counts of two such lists (src/correction.py).

Python dictionaries are modelled as insertion-ordered association lists
from string keys to field values (`Item`); a table value is a list of
rows, a row a list of cells, and a cell a list of content items, exactly
as built by `extract_table`.  The Python functions are translated one to
one; functions that can raise (`correct_headers` indexes `translation[i]`
and `translation[i]['location']` directly) return `Option`, with `none`
standing for a raised `IndexError`/`KeyError`.
-/

/-- A value stored under a key of a content-item dictionary: a string
(`text`, `location`, `type`), a boolean (`modified`), or a nested table
(`table`), which is a list of rows, each a list of cells, each a list of
content items (association lists of key-value pairs). -/
inductive Fld where
  | str : String → Fld
  | flag : Bool → Fld
  | tbl : List (List (List (List (String × Fld)))) → Fld

/-- A content item: a Python dict modelled as an insertion-ordered
association list from string keys to field values. -/
abbrev Item := List (String × Fld)

mutual

/-- Decidable structural equality on field values, mirroring Python `==`
on the dictionary values produced by the extractor. -/
def fldDecEq : (a b : Fld) → Decidable (a = b)
  | Fld.str a, Fld.str b =>
    match String.decEq a b with
    | isTrue h => isTrue (by rw [h])
    | isFalse h => isFalse (fun hh => h (Fld.str.inj hh))
  | Fld.str _, Fld.flag _ => isFalse (fun h => Fld.noConfusion h)
  | Fld.str _, Fld.tbl _ => isFalse (fun h => Fld.noConfusion h)
  | Fld.flag _, Fld.str _ => isFalse (fun h => Fld.noConfusion h)
  | Fld.flag a, Fld.flag b =>
    match Bool.decEq a b with
    | isTrue h => isTrue (by rw [h])
    | isFalse h => isFalse (fun hh => h (Fld.flag.inj hh))
  | Fld.flag _, Fld.tbl _ => isFalse (fun h => Fld.noConfusion h)
  | Fld.tbl _, Fld.str _ => isFalse (fun h => Fld.noConfusion h)
  | Fld.tbl _, Fld.flag _ => isFalse (fun h => Fld.noConfusion h)
  | Fld.tbl a, Fld.tbl b =>
    match l4DecEq a b with
    | isTrue h => isTrue (by rw [h])
    | isFalse h => isFalse (fun hh => h (Fld.tbl.inj hh))
termination_by structural a => a

/-- Decidable equality on key-value pairs. -/
def pairDecEq : (a b : String × Fld) → Decidable (a = b)
  | (s, f), (t, g) =>
    match String.decEq s t, fldDecEq f g with
    | isTrue h1, isTrue h2 => isTrue (by rw [show s = t from h1, show f = g from h2])
    | isFalse h1, _ => isFalse (fun h => h1 (congrArg Prod.fst h))
    | _, isFalse h2 => isFalse (fun h => h2 (congrArg Prod.snd h))
termination_by structural a => a

/-- Decidable equality on content items (association lists). -/
def l1DecEq : (a b : List (String × Fld)) → Decidable (a = b)
  | [], [] => isTrue rfl
  | [], _ :: _ => isFalse (fun h => List.noConfusion h)
  | _ :: _, [] => isFalse (fun h => List.noConfusion h)
  | x :: xs, y :: ys =>
    match pairDecEq x y, l1DecEq xs ys with
    | isTrue h1, isTrue h2 => isTrue (by rw [h1, h2])
    | isFalse h1, _ => isFalse (fun h => h1 (List.cons_eq_cons.mp h).1)
    | _, isFalse h2 => isFalse (fun h => h2 (List.cons_eq_cons.mp h).2)
termination_by structural a => a

/-- Decidable equality on cell contents (lists of content items). -/
def l2DecEq : (a b : List (List (String × Fld))) → Decidable (a = b)
  | [], [] => isTrue rfl
  | [], _ :: _ => isFalse (fun h => List.noConfusion h)
  | _ :: _, [] => isFalse (fun h => List.noConfusion h)
  | x :: xs, y :: ys =>
    match l1DecEq x y, l2DecEq xs ys with
    | isTrue h1, isTrue h2 => isTrue (by rw [h1, h2])
    | isFalse h1, _ => isFalse (fun h => h1 (List.cons_eq_cons.mp h).1)
    | _, isFalse h2 => isFalse (fun h => h2 (List.cons_eq_cons.mp h).2)
termination_by structural a => a

/-- Decidable equality on table rows (lists of cells). -/
def l3DecEq : (a b : List (List (List (String × Fld)))) → Decidable (a = b)
  | [], [] => isTrue rfl
  | [], _ :: _ => isFalse (fun h => List.noConfusion h)
  | _ :: _, [] => isFalse (fun h => List.noConfusion h)
  | x :: xs, y :: ys =>
    match l2DecEq x y, l3DecEq xs ys with
    | isTrue h1, isTrue h2 => isTrue (by rw [h1, h2])
    | isFalse h1, _ => isFalse (fun h => h1 (List.cons_eq_cons.mp h).1)
    | _, isFalse h2 => isFalse (fun h => h2 (List.cons_eq_cons.mp h).2)
termination_by structural a => a

/-- Decidable equality on tables (lists of rows). -/
def l4DecEq : (a b : List (List (List (List (String × Fld))))) → Decidable (a = b)
  | [], [] => isTrue rfl
  | [], _ :: _ => isFalse (fun h => List.noConfusion h)
  | _ :: _, [] => isFalse (fun h => List.noConfusion h)
  | x :: xs, y :: ys =>
    match l3DecEq x y, l4DecEq xs ys with
    | isTrue h1, isTrue h2 => isTrue (by rw [h1, h2])
    | isFalse h1, _ => isFalse (fun h => h1 (List.cons_eq_cons.mp h).1)
    | _, isFalse h2 => isFalse (fun h => h2 (List.cons_eq_cons.mp h).2)
termination_by structural a => a

end

instance : DecidableEq Fld := fldDecEq

/-! ## Correction engine (src/correction.py) -/

/-- `count_headers` (src/correction.py): number of items whose
`location` key holds the string `header` (Python
`sum(1 for item in data if item.get('location') == 'header')`;
`dict.get` on an absent key yields `None`, which is not `'header'`). -/
def count_headers (data : List Item) : Nat :=
  List.countP (fun item => List.lookup "location" item == some (Fld.str "header")) data

/-- `get_first_header_index` (src/correction.py): index of the first
item whose `location` key holds `header`, or `none`. -/
def get_first_header_index (data : List Item) : Option Nat :=
  List.findIdx? (fun item => List.lookup "location" item == some (Fld.str "header")) data

/-- Python dict assignment `item[k] = v`: overwrite the value of an
existing key in place, or append a new key at the end (insertion
order). -/
def setKey : Item → String → Fld → Item
  | [], k, v => [(k, v)]
  | (k', v') :: rest, k, v =>
    if k' = k then (k, v) :: rest else (k', v') :: setKey rest k v

/-- The in-place mutation performed on a promoted item by
`correct_headers`: `item['location'] = 'header'; item['modified'] = True`. -/
def promoteItem (item : Item) : Item :=
  setKey (setKey item "location" (Fld.str "header")) "modified" (Fld.flag true)

/-- The promotion loop of `correct_headers`:
`for i in range(header_difference): if translation[i]['location'] == 'body': ...`.
Walks the first `n` items; `none` models the `IndexError` raised when
fewer than `n` items exist, or the `KeyError` raised by
`translation[i]['location']` when an examined item has no `location`
key.  On success it returns the `corrected_items` buffer: the promoted
copies of the examined items whose `location` was `body`, in order. -/
def promoteFirst : Nat → List Item → Option (List Item)
  | 0, _ => some []
  | Nat.succ _, [] => none
  | Nat.succ n, item :: rest =>
    match List.lookup "location" item with
    | none => none
    | some v =>
      if v = Fld.str "body" then
        Option.map (fun tail => promoteItem item :: tail) (promoteFirst n rest)
      else
        promoteFirst n rest

/-- `correct_headers` (src/correction.py).  Computes the header deficit
`origin` minus `translation` as a Python integer; when positive it runs
the promotion loop over the first `deficit` items, drops that prefix,
and splices the promoted buffer before the first remaining header (or
appends it when the remainder has none).  `none` models an uncaught
`IndexError`/`KeyError` escaping the function. -/
def correct_headers (origin translation : List Item) : Option (List Item) :=
  let header_difference : Int :=
    (count_headers origin : Int) - (count_headers translation : Int)
  if 0 < header_difference then
    match promoteFirst header_difference.toNat translation with
    | none => none
    | some corrected_items =>
      let rest := List.drop header_difference.toNat translation
      match get_first_header_index rest with
      | some idx => some (List.take idx rest ++ corrected_items ++ List.drop idx rest)
      | none => some (rest ++ corrected_items)
  else
    some translation

/-- The header deficit of the two sequences, as computed by
`correct_headers` (a possibly negative Python integer). -/
def headerDeficit (origin translation : List Item) : Int :=
  (count_headers origin : Int) - (count_headers translation : Int)

/-- Specification-side description of the `corrected_items` buffer: the
items among the first `n` of the list whose `location` is `body`, each
promoted, in their original relative order. -/
def promotedOf (n : Nat) (l : List Item) : List Item :=
  List.filterMap
    (fun it =>
      if List.lookup "location" it = some (Fld.str "body") then some (promoteItem it)
      else none)
    (List.take n l)

/-- Specification-side relocation: splice `promoted` immediately before
the first item of `rest` whose `location` is `header`, or append it at
the end when `rest` contains no header. -/
def spliceBeforeFirstHeader (rest promoted : List Item) : List Item :=
  match get_first_header_index rest with
  | some idx => List.take idx rest ++ promoted ++ List.drop idx rest
  | none => rest ++ promoted

/-! Concrete content items used by witnesses and counterexamples. -/

/-- A plain header text item. -/
def hdrItem (s : String) : Item := [("text", Fld.str s), ("location", Fld.str "header")]

/-- A plain body text item. -/
def bodyItem (s : String) : Item := [("text", Fld.str s), ("location", Fld.str "body")]

/-- A body table item as built by the body pass of
`extract_content_from_document`: it carries no `location` key. -/
def bareTableItem : Item := [("table", Fld.tbl [])]

/-- The translation sequence of the end-to-end example of the
specification. -/
def exampleT : List Item :=
  [bodyItem "A", bodyItem "B", bodyItem "C", hdrItem "D"]

example : count_headers [hdrItem "h", bodyItem "b"] = 1 := by decide
example : correct_headers [hdrItem "h"] [bodyItem "b"] = some [promoteItem (bodyItem "b")] := by decide
example : promoteItem (bodyItem "A") =
    [("text", Fld.str "A"), ("location", Fld.str "header"), ("modified", Fld.flag true)] := by decide
example : correct_headers [hdrItem "x"] [bareTableItem] = none := by decide
example : correct_headers [hdrItem "x", hdrItem "y"] [bodyItem "A"] = none := by decide

/-! ## Extraction (src/extraction.py) -/

/-- A child element of a body, header/footer or cell container: a table
element (`w:tbl`, carrying its rows, each row a list of cells, each cell
a list of child elements), a paragraph element (`w:p`, carrying the text
of its runs), or any other element, which every traversal skips. -/
inductive CellElement where
  | tbl : List (List (List CellElement)) → CellElement
  | p : List String → CellElement
  | other : CellElement

/-- Python `str.strip()`: remove leading and trailing whitespace
characters. -/
def pyStrip (s : String) : String :=
  String.mk
    (List.reverse
      (List.dropWhile Char.isWhitespace
        (List.reverse (List.dropWhile Char.isWhitespace s.data))))

/-- The paragraph-text logic shared by all passes: concatenate the run
texts (`''.join(run.text for run in paragraph.runs)`); if the result is
non-empty, strip it; emit it only if still non-empty. -/
def paragraphText (runs : List String) : Option String :=
  let raw := String.join runs
  if raw ≠ "" then
    let stripped := pyStrip raw
    if stripped ≠ "" then some stripped else none
  else none

/-- The comparison loop of `remove_consecutive_duplicates`: each element
is kept only when it differs from the element just before it in the
original list. -/
def keepUnequal {α : Type} [DecidableEq α] (prev : α) : List α → List α
  | [] => []
  | y :: ys => if y ≠ prev then y :: keepUnequal y ys else keepUnequal y ys

/-- `remove_consecutive_duplicates` (src/extraction.py): keep the first
element, then drop every element equal to its immediate predecessor. -/
def remove_consecutive_duplicates {α : Type} [DecidableEq α] : List α → List α
  | [] => []
  | x :: xs => x :: keepUnequal x xs

mutual

/-- The items one child element of a cell contributes: a nested table
becomes `{"table": data}`, a paragraph with non-empty stripped text
becomes `{"text": t}` (cell items carry no `location`), and any other
element contributes nothing. -/
def cellElementItems : CellElement → List Item
  | CellElement.tbl rows => [[("table", Fld.tbl (extract_table rows))]]
  | CellElement.p runs =>
    match paragraphText runs with
    | some t => [[("text", Fld.str t)]]
    | none => []
  | CellElement.other => []
termination_by structural c => c

/-- `extract_content_from_cell` (src/extraction.py): traverse a cell's
child elements in order, concatenating each element's contribution. -/
def extract_content_from_cell : List CellElement → List Item
  | [] => []
  | e :: rest => cellElementItems e ++ extract_content_from_cell rest
termination_by structural c => c

/-- The row comprehension of `extract_table`: the contents of each cell
of a row, in order, before duplicate removal. -/
def extract_row_cells : List (List CellElement) → List (List Item)
  | [] => []
  | cell :: rest => extract_content_from_cell cell :: extract_row_cells rest
termination_by structural c => c

/-- `extract_table` (src/extraction.py): for each row, extract every
cell's content list, then collapse consecutive duplicate cells. -/
def extract_table : List (List (List CellElement)) → List (List (List Item))
  | [] => []
  | row :: rest =>
    remove_consecutive_duplicates (extract_row_cells row) :: extract_table rest
termination_by structural c => c

end

/-- The loop body of `process_container` (src/extraction.py): one pass
over the container's child elements accumulating the `local_texts` and
`local_tables` buffers separately. -/
def containerLoop (loc : String) :
    List CellElement → List Item → List Item → List Item × List Item
  | [], texts, tables => (texts, tables)
  | CellElement.tbl rows :: rest, texts, tables =>
    containerLoop loc rest texts
      (tables ++ [[("table", Fld.tbl (extract_table rows)), ("location", Fld.str loc)]])
  | CellElement.p runs :: rest, texts, tables =>
    match paragraphText runs with
    | some t =>
      containerLoop loc rest
        (texts ++ [[("text", Fld.str t), ("location", Fld.str loc)]]) tables
    | none => containerLoop loc rest texts tables
  | CellElement.other :: rest, texts, tables => containerLoop loc rest texts tables

/-- `process_container` (src/extraction.py): collect the paragraph items
and the table items of a header or footer container into two separate
buffers and return `local_texts + local_tables`. -/
def process_container (container : List CellElement) (loc : String) : List Item :=
  let r := containerLoop loc container [] []
  r.1 ++ r.2

/-- One section of the document, with the child elements of its header
container and of its footer container. -/
structure DocSection where
  header : List CellElement
  footer : List CellElement

/-- The section loop of `extract_text_from_headers_and_footers`: for
each section in order, extend the header buffer with the processed
header container and the footer buffer with the processed footer
container. -/
def sectionsLoop : List DocSection → List Item → List Item → List Item × List Item
  | [], hs, fs => (hs, fs)
  | s :: rest, hs, fs =>
    sectionsLoop rest (hs ++ process_container s.header "header")
      (fs ++ process_container s.footer "footer")

/-- `extract_text_from_headers_and_footers` (src/extraction.py): the
accumulated header buffer concatenated before the accumulated footer
buffer. -/
def extract_text_from_headers_and_footers (sections : List DocSection) : List Item :=
  let r := sectionsLoop sections [] []
  r.1 ++ r.2

/-- The text of one footnote entry: the non-empty `w:t` texts joined
with a single space and stripped (`' '.join(text).strip()`; an absent
`child.text` is modelled as the empty string, which the `if child.text`
guard skips). -/
def footnoteText (runs : List String) : String :=
  pyStrip (String.intercalate " " (List.filter (fun t => t ≠ "") runs))

/-- `extract_footnotes_from_xml` (src/extraction.py): `none` models a
document whose relations contain no footnotes part (the function then
returns the empty list); otherwise every `w:footnote` entry of the
footnotes part yields `{'text': ..., 'type': 'footnote'}`,
unconditionally. -/
def extract_footnotes_from_xml (store : Option (List (List String))) : List Item :=
  match store with
  | none => []
  | some entries =>
    List.map
      (fun fn => [("text", Fld.str (footnoteText fn)), ("type", Fld.str "footnote")])
      entries

/-- A loaded document: the top-level child elements of its body, its
sections, and its optional footnotes part (each footnote entry carrying
the texts of its `w:t` descendants). -/
structure DocxDocument where
  body : List CellElement
  sections : List DocSection
  footnoteStore : Option (List (List String))

/-- The body loop of `extract_content_from_document`: a top-level table
element appends `{"table": data}` (no `location` key), a paragraph with
non-empty stripped text appends `{"text": t, "location": "body"}`, and
any other element is skipped. -/
def bodyLoop : List CellElement → List Item → List Item
  | [], acc => acc
  | CellElement.tbl rows :: rest, acc =>
    bodyLoop rest (acc ++ [[("table", Fld.tbl (extract_table rows))]])
  | CellElement.p runs :: rest, acc =>
    match paragraphText runs with
    | some t =>
      bodyLoop rest (acc ++ [[("text", Fld.str t), ("location", Fld.str "body")]])
    | none => bodyLoop rest acc
  | CellElement.other :: rest, acc => bodyLoop rest acc

/-- `extract_content_from_document` (src/extraction.py): the body pass,
then the header/footer pass, then the footnote pass. -/
def extract_content_from_document (doc : DocxDocument) : List Item :=
  bodyLoop doc.body [] ++ extract_text_from_headers_and_footers doc.sections
    ++ extract_footnotes_from_xml doc.footnoteStore

/-- `extract_content_from_docx` (src/extraction.py): `Document(file_path)`
either yields a document or raises; the surrounding `try`/`except`
catches any exception and returns the empty list. -/
def extract_content_from_docx (opened : Except String DocxDocument) : List Item :=
  match opened with
  | Except.error _ => []
  | Except.ok doc => extract_content_from_document doc

/-! Specification-side descriptions of the extraction order, written as
direct per-element traversals rather than the accumulator loops of the
source, for the order theorems. -/

/-- The items the body pass emits for one top-level body element. -/
def bodyItemsOf : CellElement → List Item
  | CellElement.tbl rows => [[("table", Fld.tbl (extract_table rows))]]
  | CellElement.p runs =>
    match paragraphText runs with
    | some t => [[("text", Fld.str t), ("location", Fld.str "body")]]
    | none => []
  | CellElement.other => []

/-- The paragraph items of a header/footer container, in child-element
order. -/
def containerParagraphItems (container : List CellElement) (loc : String) : List Item :=
  List.filterMap
    (fun e =>
      match e with
      | CellElement.p runs =>
        Option.map (fun t => [("text", Fld.str t), ("location", Fld.str loc)])
          (paragraphText runs)
      | _ => none)
    container

/-- The table items of a header/footer container, in child-element
order. -/
def containerTableItems (container : List CellElement) (loc : String) : List Item :=
  List.filterMap
    (fun e =>
      match e with
      | CellElement.tbl rows =>
        some [("table", Fld.tbl (extract_table rows)), ("location", Fld.str loc)]
      | _ => none)
    container

example : extract_table [[[CellElement.p ["a"]], [CellElement.p ["a"]], [CellElement.p ["b"]]]] =
    [[[[("text", Fld.str "a")]], [[("text", Fld.str "b")]]]] := by decide
example : process_container [CellElement.tbl [], CellElement.p ["x"]] "header" =
    [[("text", Fld.str "x"), ("location", Fld.str "header")],
     [("table", Fld.tbl []), ("location", Fld.str "header")]] := by decide
example : extract_footnotes_from_xml (some [[]]) =
    [[("text", Fld.str ""), ("type", Fld.str "footnote")]] := by decide
example : paragraphText ["  ", " "] = none := by decide

/-! ## Helper lemmas about the promotion loop -/

/-- When the loop bound exceeds the list length, the promotion loop hits
the missing index and raises (`IndexError`), modelled as `none`. -/
theorem promoteFirst_none_of_short :
    ∀ (n : Nat) (l : List Item), List.length l < n → promoteFirst n l = none := by
  intro n
  induction n with
  | zero => intro l h; omega
  | succ k ih =>
    intro l h
    cases l with
    | nil => rfl
    | cons item rest =>
      simp only [List.length_cons] at h
      simp only [promoteFirst]
      cases List.lookup "location" item with
      | none => rfl
      | some v =>
        by_cases hv : v = Fld.str "body"
        · simp [hv, ih rest (by omega)]
        · simp [hv, ih rest (by omega)]

/-- When the loop bound is within the list and every examined item has a
`location` key, the promotion loop succeeds and returns exactly the
promoted copies of the examined body items, in order. -/
theorem promoteFirst_eq_promotedOf :
    ∀ (n : Nat) (l : List Item), n ≤ List.length l →
      (∀ it ∈ List.take n l, (List.lookup "location" it).isSome) →
      promoteFirst n l = some (promotedOf n l) := by
  intro n
  induction n with
  | zero => intro l _ _; simp [promoteFirst, promotedOf]
  | succ k ih =>
    intro l hlen hloc
    cases l with
    | nil => simp at hlen
    | cons item rest =>
      have hhead : (List.lookup "location" item).isSome := by
        apply hloc
        rw [List.take_succ_cons]
        exact List.mem_cons_self item _
      obtain ⟨v, hv⟩ := Option.isSome_iff_exists.mp hhead
      have htail : ∀ it ∈ List.take k rest, (List.lookup "location" it).isSome := by
        intro it hit
        apply hloc
        rw [List.take_succ_cons]
        exact List.mem_cons_of_mem _ hit
      have hlen' : k ≤ List.length rest := by
        simp only [List.length_cons] at hlen; omega
      simp only [promoteFirst, hv]
      by_cases hbody : v = Fld.str "body"
      · rw [if_pos hbody, ih rest hlen' htail]
        simp only [promotedOf, List.take_succ_cons, List.filterMap_cons, hv, hbody,
          if_pos rfl, Option.map_some]
        rfl
      · rw [if_neg hbody, ih rest hlen' htail]
        simp only [promotedOf, List.take_succ_cons, List.filterMap_cons, hv]
        rw [if_neg (fun hc => hbody (Option.some.inj hc))]

/-! ## Claim theorems for the correction engine -/

/-- C1 (counterexample): the claim says `correct_headers` never fails
for well-formed sequences of any item shapes, body table items carrying
no `location` field.  With one header in the origin and a translation
whose first item is a body table item (no `location` key), the deficit
is 1 and `translation[0]['location']` raises `KeyError`, modelled as
`none`: no result is returned. -/
theorem correct_headers_total_cex :
    correct_headers [hdrItem "H"] [bareTableItem] = none := by decide

/-- C1 (amended): `correct_headers` returns a result whenever the header
deficit is non-positive, or the deficit is at most the translation's
length and each of the first `deficit` items of the translation carries
a `location` field. -/
theorem correct_headers_total_amended (origin translation : List Item)
    (h : headerDeficit origin translation ≤ 0 ∨
      ((headerDeficit origin translation).toNat ≤ List.length translation ∧
        ∀ it ∈ List.take (headerDeficit origin translation).toNat translation,
          (List.lookup "location" it).isSome)) :
    (correct_headers origin translation).isSome := by
  simp only [headerDeficit] at h
  simp only [correct_headers]
  split
  · rename_i hpos
    rcases h with hle | ⟨hlen, hloc⟩
    · exfalso; omega
    · rw [promoteFirst_eq_promotedOf _ _ hlen hloc]
      cases get_first_header_index
          (List.drop ((count_headers origin : Int) - (count_headers translation : Int)).toNat
            translation) <;> rfl
  · rfl

/-- Witness for C1's amended theorem at a deficit-one input whose first
translation item is a body text item. -/
theorem correct_headers_total_amended_witness :
    (correct_headers [hdrItem "h1", hdrItem "h2"] [bodyItem "A", hdrItem "D"]).isSome :=
  correct_headers_total_amended [hdrItem "h1", hdrItem "h2"] [bodyItem "A", hdrItem "D"]
    (Or.inr ⟨by decide, by decide⟩)

/-- C3 (counterexample): the claim says that when the deficit exceeds
the translation's length, only as many items as exist are examined and a
result is still returned.  With two headers in the origin and a
one-item translation, the loop `for i in range(2)` reaches index 1 of a
length-1 list and raises `IndexError`: no result is returned. -/
theorem correct_headers_deficit_exceeds_cex :
    correct_headers [hdrItem "H1", hdrItem "H2"] [bodyItem "A"] = none := by decide

/-- C3 (amended): whenever the header deficit exceeds the translation's
length, `correct_headers` raises `IndexError` (modelled as `none`)
rather than returning a result. -/
theorem correct_headers_deficit_exceeds_length (origin translation : List Item)
    (h : (List.length translation : Int) < headerDeficit origin translation) :
    correct_headers origin translation = none := by
  simp only [headerDeficit] at h
  simp only [correct_headers]
  split
  · rw [promoteFirst_none_of_short]
    omega
  · exfalso; omega

/-- Witness for C3's amended theorem: deficit 2 against an empty
translation. -/
theorem correct_headers_deficit_exceeds_length_witness :
    correct_headers [hdrItem "H1", hdrItem "H2"] [] = none :=
  correct_headers_deficit_exceeds_length [hdrItem "H1", hdrItem "H2"] [] (by decide)

/-- C4: for any origin with exactly two header items and the example
translation `[A(body), B(body), C(body), D(header)]`, the deficit is 1,
item `A` is promoted (`location` set to `header`, `modified` set), the
remainder after dropping the first item is `[B, C, D]`, and the promoted
buffer is spliced before `D`, giving `[B, C, A(header, modified),
D(header)]` with `B`, `C`, `D` unchanged. -/
theorem correct_headers_example (origin : List Item)
    (h : count_headers origin = 2) :
    correct_headers origin exampleT =
      some [bodyItem "B", bodyItem "C",
        [("text", Fld.str "A"), ("location", Fld.str "header"), ("modified", Fld.flag true)],
        hdrItem "D"] := by
  unfold correct_headers
  rw [h]
  rfl

/-- Witness for C4 at an origin consisting of two header items. -/
theorem correct_headers_example_witness :
    correct_headers [hdrItem "h1", hdrItem "h2"] exampleT =
      some [bodyItem "B", bodyItem "C",
        [("text", Fld.str "A"), ("location", Fld.str "header"), ("modified", Fld.flag true)],
        hdrItem "D"] :=
  correct_headers_example [hdrItem "h1", hdrItem "h2"] (by decide)

/-- C5 (counterexample): the claim quantifies over every translation
with positive deficit within the translation's length, but when the
first item has no `location` key (a body table item), the code raises
`KeyError` instead of returning the spliced remainder (which here would
be `some []`). -/
theorem correct_headers_relocation_cex :
    correct_headers [hdrItem "Hx"] [[("table", Fld.tbl []), ("text", Fld.str "cap")]] ≠
      some (spliceBeforeFirstHeader
        (List.drop 1 [[("table", Fld.tbl []), ("text", Fld.str "cap")]])
        (promotedOf 1 [[("table", Fld.tbl []), ("text", Fld.str "cap")]])) := by decide

/-- C5 (amended): when the deficit is positive, at most the
translation's length, and each of the first `deficit` items carries a
`location` field, the result is the remainder (the translation minus its
first `deficit` items) with the promoted buffer spliced immediately
before the first remaining header, or appended at the end when the
remainder has no header. -/
theorem correct_headers_relocation (origin translation : List Item)
    (h1 : 0 < headerDeficit origin translation)
    (h2 : (headerDeficit origin translation).toNat ≤ List.length translation)
    (h3 : ∀ it ∈ List.take (headerDeficit origin translation).toNat translation,
        (List.lookup "location" it).isSome) :
    correct_headers origin translation =
      some (spliceBeforeFirstHeader
        (List.drop (headerDeficit origin translation).toNat translation)
        (promotedOf (headerDeficit origin translation).toNat translation)) := by
  simp only [headerDeficit] at h1 h2 h3 ⊢
  simp only [correct_headers]
  rw [if_pos h1, promoteFirst_eq_promotedOf _ _ h2 h3]
  unfold spliceBeforeFirstHeader
  cases get_first_header_index
      (List.drop ((count_headers origin : Int) - (count_headers translation : Int)).toNat
        translation) <;> rfl

/-- Witness for C5's amended theorem: deficit 1, one body item promoted
and spliced before the remaining header. -/
theorem correct_headers_relocation_witness :
    correct_headers [hdrItem "h1", hdrItem "h2"] [bodyItem "A", hdrItem "D"] =
      some (spliceBeforeFirstHeader (List.drop 1 [bodyItem "A", hdrItem "D"])
        (promotedOf 1 [bodyItem "A", hdrItem "D"])) :=
  correct_headers_relocation [hdrItem "h1", hdrItem "h2"] [bodyItem "A", hdrItem "D"]
    (by decide) (by decide) (by decide)

/-- C6: whenever the origin's header count is at most the translation's,
the deficit is non-positive and `correct_headers` returns the
translation unchanged — nothing is reordered, removed, relocated, or
flagged `modified`; in particular a second application to an
already-corrected sequence with balanced header counts is the
identity. -/
theorem correct_headers_noop_when_balanced (origin translation : List Item)
    (h : count_headers origin ≤ count_headers translation) :
    correct_headers origin translation = some translation := by
  simp only [correct_headers]
  split
  · exfalso; omega
  · rfl

/-- Witness for C6 at a balanced pair (one header each). -/
theorem correct_headers_noop_when_balanced_witness :
    correct_headers [hdrItem "h", bodyItem "x"] [hdrItem "g", bodyItem "y"] =
      some [hdrItem "g", bodyItem "y"] :=
  correct_headers_noop_when_balanced [hdrItem "h", bodyItem "x"] [hdrItem "g", bodyItem "y"]
    (by decide)

/-! ## Helper lemmas about the extraction loops -/

/-- The body loop is the accumulator form of a flat map over the body
elements. -/
theorem bodyLoop_eq_append :
    ∀ (l : List CellElement) (acc : List Item),
      bodyLoop l acc = acc ++ List.flatMap l bodyItemsOf := by
  intro l
  induction l with
  | nil => intro acc; simp [bodyLoop]
  | cons e rest ih =>
    intro acc
    cases e with
    | tbl rows => simp [bodyLoop, ih, bodyItemsOf]
    | p runs =>
      simp only [bodyLoop, List.flatMap_cons, bodyItemsOf]
      cases paragraphText runs with
      | none => simp [ih]
      | some t => simp [ih]
    | other => simp [bodyLoop, ih, bodyItemsOf]

/-- The two-buffer container loop accumulates the paragraph items and
table items of the container separately, each in child-element order. -/
theorem containerLoop_eq (loc : String) :
    ∀ (l : List CellElement) (ts tbs : List Item),
      containerLoop loc l ts tbs =
        (ts ++ containerParagraphItems l loc, tbs ++ containerTableItems l loc) := by
  intro l
  induction l with
  | nil => intro ts tbs; simp [containerLoop, containerParagraphItems, containerTableItems]
  | cons e rest ih =>
    intro ts tbs
    cases e with
    | tbl rows =>
      simp [containerLoop, ih, containerParagraphItems, containerTableItems,
        List.filterMap_cons]
    | p runs =>
      simp only [containerLoop, containerParagraphItems, containerTableItems,
        List.filterMap_cons]
      cases paragraphText runs with
      | none => simp [ih, containerParagraphItems, containerTableItems]
      | some t => simp [ih, containerParagraphItems, containerTableItems]
    | other =>
      simp [containerLoop, ih, containerParagraphItems, containerTableItems,
        List.filterMap_cons]

/-- `process_container` emits all paragraph items of the container
first, then all its table items. -/
theorem process_container_eq (container : List CellElement) (loc : String) :
    process_container container loc =
      containerParagraphItems container loc ++ containerTableItems container loc := by
  simp [process_container, containerLoop_eq]

/-- The section loop accumulates per-section header contributions into
the first buffer and per-section footer contributions into the
second. -/
theorem sectionsLoop_eq :
    ∀ (secs : List DocSection) (hs fs : List Item),
      sectionsLoop secs hs fs =
        (hs ++ List.flatMap secs (fun s => process_container s.header "header"),
         fs ++ List.flatMap secs (fun s => process_container s.footer "footer")) := by
  intro secs
  induction secs with
  | nil => intro hs fs; simp [sectionsLoop]
  | cons s rest ih => intro hs fs; simp [sectionsLoop, ih]

/-! ## Claim theorems for extraction -/

/-- C2 (counterexample): the claim says that within a header container
the emitted items appear in child-element document order, interleaved
exactly as in the source.  For a document whose single section's header
holds a table element followed by a paragraph element, the claimed
output would list the table item before the text item; the code's
`process_container` returns `local_texts + local_tables`, so the text
item comes first. -/
theorem extract_content_order_cex :
    extract_content_from_document
        (DocxDocument.mk [] [DocSection.mk [CellElement.tbl [], CellElement.p ["x"]] []] none) ≠
      [[("table", Fld.tbl []), ("location", Fld.str "header")],
       [("text", Fld.str "x"), ("location", Fld.str "header")]] := by decide

/-- C2 (amended): the extracted sequence is the body items in body
order, then all header items, then all footer items, then the footnote
items; headers precede footers regardless of section order, but within
each header or footer container the emitted items are grouped by kind —
the container's paragraph items first, in child-element order, followed
by its table items, in child-element order — rather than interleaved. -/
theorem extract_content_order (doc : DocxDocument) :
    extract_content_from_document doc =
      List.flatMap doc.body bodyItemsOf
        ++ List.flatMap doc.sections
            (fun s => containerParagraphItems s.header "header"
              ++ containerTableItems s.header "header")
        ++ List.flatMap doc.sections
            (fun s => containerParagraphItems s.footer "footer"
              ++ containerTableItems s.footer "footer")
        ++ extract_footnotes_from_xml doc.footnoteStore := by
  unfold extract_content_from_document extract_text_from_headers_and_footers
  rw [bodyLoop_eq_append, sectionsLoop_eq]
  simp only [process_container_eq, List.nil_append, List.append_assoc]

/-- C7 (counterexample): the claim says every emitted footnote item
carries the field `kind` with value `footnote`.  For a document whose
footnote store holds one entry with text `x`, the emitted item is
`{'text': 'x', 'type': 'footnote'}`: it has no `kind` key at all (the
code uses the key `type`). -/
theorem footnote_item_fields_cex :
    extract_footnotes_from_xml (some [["x"]]) =
      [[("text", Fld.str "x"), ("type", Fld.str "footnote")]] ∧
    List.lookup "kind" [("text", Fld.str "x"), ("type", Fld.str "footnote")] = none := by decide

/-- C7 (amended): every footnote item emitted by
`extract_footnotes_from_xml` carries the field `type` with value
`footnote` and carries no `location` field. -/
theorem footnote_item_fields (store : Option (List (List String))) (item : Item)
    (h : item ∈ extract_footnotes_from_xml store) :
    List.lookup "type" item = some (Fld.str "footnote") ∧
      List.lookup "location" item = none := by
  cases store with
  | none => simp [extract_footnotes_from_xml] at h
  | some entries =>
    simp only [extract_footnotes_from_xml, List.mem_map] at h
    obtain ⟨fn, -, rfl⟩ := h
    exact ⟨rfl, rfl⟩

/-- Witness for C7's amended theorem at a one-entry footnote store. -/
theorem footnote_item_fields_witness :
    List.lookup "type" [("text", Fld.str "x"), ("type", Fld.str "footnote")] =
        some (Fld.str "footnote") ∧
      List.lookup "location" [("text", Fld.str "x"), ("type", Fld.str "footnote")] = none :=
  footnote_item_fields (some [["x"]]) [("text", Fld.str "x"), ("type", Fld.str "footnote")]
    (by decide)

/-- C8: duplicate collapsing in `extract_table` is adjacent-only, never
global: a row whose cells extract to `[X, X, Y]` (with `X ≠ Y`) becomes
the two cells `[X, Y]`, while a row whose cells extract to `[X, Y, X]`
keeps all three cells. -/
theorem extract_table_adjacent_dedup (row row2 : List (List CellElement)) (X Y : List Item)
    (h1 : extract_row_cells row = [X, X, Y]) (hXY : X ≠ Y)
    (h2 : extract_row_cells row2 = [X, Y, X]) :
    extract_table [row] = [[X, Y]] ∧ extract_table [row2] = [[X, Y, X]] := by
  have hYX : Y ≠ X := fun hc => hXY hc.symm
  constructor
  · show remove_consecutive_duplicates (extract_row_cells row) :: extract_table [] = [[X, Y]]
    rw [h1]
    simp [remove_consecutive_duplicates, keepUnequal, extract_table, hYX]
  · show remove_consecutive_duplicates (extract_row_cells row2) :: extract_table [] = [[X, Y, X]]
    rw [h2]
    simp [remove_consecutive_duplicates, keepUnequal, extract_table, hXY, hYX]

/-- Witness for C8: a row of three one-paragraph cells `a`, `a`, `b`
collapses to two cells, and a row `a`, `b`, `a` keeps three. -/
theorem extract_table_adjacent_dedup_witness :
    extract_table [[[CellElement.p ["a"]], [CellElement.p ["a"]], [CellElement.p ["b"]]]] =
        [[[[("text", Fld.str "a")]], [[("text", Fld.str "b")]]]] ∧
      extract_table [[[CellElement.p ["a"]], [CellElement.p ["b"]], [CellElement.p ["a"]]]] =
        [[[[("text", Fld.str "a")]], [[("text", Fld.str "b")]], [[("text", Fld.str "a")]]]] :=
  extract_table_adjacent_dedup
    [[CellElement.p ["a"]], [CellElement.p ["a"]], [CellElement.p ["b"]]]
    [[CellElement.p ["a"]], [CellElement.p ["b"]], [CellElement.p ["a"]]]
    [[("text", Fld.str "a")]] [[("text", Fld.str "b")]]
    (by decide) (by decide) (by decide)

/-- C9: opening the document either fails — any raised error is caught
and the empty sequence is returned, never a partial one — or succeeds,
in which case the full extraction of the document is returned. -/
theorem extract_docx_all_or_nothing (err : String) (doc : DocxDocument) :
    extract_content_from_docx (Except.error err) = [] ∧
      extract_content_from_docx (Except.ok doc) = extract_content_from_document doc :=
  ⟨rfl, rfl⟩

/-- C10: footnote entries are exempt from the non-empty-text filter
applied to paragraphs: every entry of the footnote store yields an item
(no filtering, so the counts match), and an entry with no non-empty text
runs — such as the separator entries of a standard footnote store —
yields an item whose `text` is the empty string. -/
theorem footnotes_keep_empty_text (entries : List (List String)) (fn : List String)
    (hmem : fn ∈ entries) (hempty : ∀ t ∈ fn, t = "") :
    (extract_footnotes_from_xml (some entries)).length = entries.length ∧
      [("text", Fld.str ""), ("type", Fld.str "footnote")] ∈
        extract_footnotes_from_xml (some entries) := by
  constructor
  · simp [extract_footnotes_from_xml]
  · have hfilter : List.filter (fun t => t ≠ "") fn = [] := by
      rw [List.filter_eq_nil_iff]
      intro t ht
      simp [hempty t ht]
    have hft : footnoteText fn = "" := by
      unfold footnoteText
      rw [hfilter]
      rfl
    simp only [extract_footnotes_from_xml, List.mem_map]
    exact ⟨fn, hmem, by rw [hft]⟩

/-- Witness for C10: a store holding a single footnote entry with no
text runs yields exactly one item, with empty text. -/
theorem footnotes_keep_empty_text_witness :
    (extract_footnotes_from_xml (some [[]])).length = 1 ∧
      [("text", Fld.str ""), ("type", Fld.str "footnote")] ∈
        extract_footnotes_from_xml (some [[]]) :=
  footnotes_keep_empty_text [[]] [] (by decide) (by decide)
